import Mathlib

set_option autoImplicit false

namespace Xot

/-- Identifier of a node slot in the arena. It mirrors `indextree::NodeId` as
wrapped by `XmlNodeId` in `xmldata.rs`; here a slot is an index into a list. -/
abbrev NodeId := Nat

/-- Interned namespace URI identifier (`NamespaceId` in `namespace.rs`),
an index into the namespace lookup table. -/
abbrev NamespaceId := Nat

/-- Interned prefix identifier (`PrefixId` in `prefix.rs`), an index into the
prefix lookup table. -/
abbrev PrefixId := Nat

/-- Interned qualified-name identifier (`NameId` in `name.rs`), an index into
the name lookup table. -/
abbrev NameId := Nat

/-- A qualified name (`Name` in `name.rs`): local string plus namespace id,
as consumed by `FullnameSerializer::fullname` in `serialize.rs`. -/
structure Name where
  name : String
  namespace_id : NamespaceId
  deriving Repr, DecidableEq, Inhabited

/-- The namespace-to-prefix mapping of an element (`to_prefix` in the
element's `namespace_info`). The Rust side is a hash map; we model it as an
association list whose later entries win, so that `extend` (which overwrites
on key collision) is plain list concatenation. -/
abbrev NsMap := List (NamespaceId × PrefixId)

/-- Lookup in an `NsMap`; the last binding for a key wins, matching hash-map
insert/overwrite semantics. -/
def mapGet : NsMap → NamespaceId → Option PrefixId
  | [], _ => none
  | (k, v) :: rest, ns =>
    match mapGet rest ns with
    | some r => some r
    | none => if k = ns then some v else none

/-- Hash-map `extend`: overlay the bindings of `add` on `base`, `add` winning
on key collision. With last-wins lookup this is concatenation. -/
def extendMap (base add : NsMap) : NsMap := base ++ add

/-- Per-element namespace declarations (`namespace_info` in `xmlnode.rs`):
`nsToPrefixMap` is `to_prefix` (namespace to declared prefix) and
`declList` is `to_namespace` (declaration-ordered prefix/namespace pairs
used for emitting `xmlns` attributes). -/
structure NamespaceInfo where
  nsToPrefixMap : NsMap
  declList : List (PrefixId × NamespaceId)
  deriving Repr, DecidableEq, Inhabited

/-- Element payload (`Element` in `xmlnode.rs`): interned name, ordered
attributes, and namespace declarations. -/
structure ElementData where
  name_id : NameId
  attributes : List (NameId × String)
  namespace_info : NamespaceInfo
  deriving Repr, DecidableEq, Inhabited

/-- Node payload (`XmlNode` in `xmlnode.rs`). -/
inductive XmlNode where
  | Root : XmlNode
  | Element : ElementData → XmlNode
  | Text : String → XmlNode
  | Comment : String → XmlNode
  | ProcessingInstruction : String → Option String → XmlNode
  deriving Repr, DecidableEq, Inhabited

/-- Node kind tag (`NodeType` in `xmlnode.rs`). -/
inductive NodeType where
  | Root : NodeType
  | Element : NodeType
  | Text : NodeType
  | Comment : NodeType
  | ProcessingInstruction : NodeType
  deriving Repr, DecidableEq, Inhabited

/-- Kind of a node payload. -/
def XmlNode.node_type : XmlNode → NodeType
  | XmlNode.Root => NodeType.Root
  | XmlNode.Element _ => NodeType.Element
  | XmlNode.Text _ => NodeType.Text
  | XmlNode.Comment _ => NodeType.Comment
  | XmlNode.ProcessingInstruction _ _ => NodeType.ProcessingInstruction

/-- One arena slot, mirroring an `indextree` node: tree links, the removal
flag consulted by `is_removed`, and the payload. Sibling links are derived
from the parent's ordered child list instead of being stored. -/
structure ArenaNode where
  parent : Option NodeId
  children : List NodeId
  removed : Bool
  value : XmlNode
  deriving Repr, DecidableEq

instance : Inhabited ArenaNode := ⟨⟨none, [], true, XmlNode.Root⟩⟩

/-- The document state (`XmlData` in `xmldata.rs`): the node arena plus the
three interning tables and the two pre-seeded distinguished ids. Interned
values are indices into the corresponding list. -/
structure XmlData where
  arena : List ArenaNode
  namespace_lookup : List String
  prefix_lookup : List String
  name_lookup : List Name
  no_namespace_id : NamespaceId
  empty_prefix_id : PrefixId
  deriving Repr, DecidableEq

/-- Fresh document state (`XmlData::new`): empty arena, the empty namespace
and the empty prefix pre-registered at id 0. -/
def XmlData.new : XmlData :=
  { arena := []
    namespace_lookup := [""]
    prefix_lookup := [""]
    name_lookup := []
    no_namespace_id := 0
    empty_prefix_id := 0 }

/-- Dereference a handle (`arena[node_id]`). Out-of-range handles yield the
default (removed, Root-valued) slot; all verified scenarios stay in range. -/
def nodeOf (d : XmlData) (n : NodeId) : ArenaNode :=
  d.arena.getD n default

/-- Payload of a node (`xml_node` accessor). -/
def xml_node (d : XmlData) (n : NodeId) : XmlNode :=
  (nodeOf d n).value

/-- The `parent` structural query. -/
def parent (d : XmlData) (n : NodeId) : Option NodeId :=
  (nodeOf d n).parent

/-- Ordered child list of a node (backs `children`, `first_child`,
`last_child` and the sibling queries). -/
def children (d : XmlData) (n : NodeId) : List NodeId :=
  (nodeOf d n).children

/-- The `first_child` structural query. -/
def first_child (d : XmlData) (n : NodeId) : Option NodeId :=
  (children d n).head?

/-- The `last_child` structural query. -/
def last_child (d : XmlData) (n : NodeId) : Option NodeId :=
  (children d n).getLast?

/-- Element immediately after `n` in a child list, if any. -/
def listNextAfter : List NodeId → NodeId → Option NodeId
  | [], _ => none
  | a :: rest, n => if a = n then rest.head? else listNextAfter rest n

/-- The `next_sibling` structural query, derived from the parent's child
list (a detached node has no siblings, as in `indextree`). -/
def next_sibling (d : XmlData) (n : NodeId) : Option NodeId :=
  match parent d n with
  | none => none
  | some p => listNextAfter (children d p) n

/-- The `previous_sibling` structural query. -/
def previous_sibling (d : XmlData) (n : NodeId) : Option NodeId :=
  match parent d n with
  | none => none
  | some p => listNextAfter (children d p).reverse n

/-- The `node_type` accessor. -/
def node_type (d : XmlData) (n : NodeId) : NodeType :=
  (xml_node d n).node_type

/-- The `is_root` accessor. -/
def is_root (d : XmlData) (n : NodeId) : Bool :=
  node_type d n == NodeType.Root

/-- The `is_under_root` accessor: the parent exists and is the Root. -/
def is_under_root (d : XmlData) (n : NodeId) : Bool :=
  match parent d n with
  | some p => is_root d p
  | none => false

/-- The `is_text` accessor. -/
def is_text (d : XmlData) (n : NodeId) : Bool :=
  node_type d n == NodeType.Text

/-- The `text_str` accessor: the string payload of a Text node, `none` for
any other kind. -/
def text (d : XmlData) (n : NodeId) : Option String :=
  match xml_node d n with
  | XmlNode.Text s => some s
  | _ => none

/-- The `element` accessor. -/
def element (d : XmlData) (n : NodeId) : Option ElementData :=
  match xml_node d n with
  | XmlNode.Element e => some e
  | _ => none

/-- The `is_removed` accessor: whether the slot was destroyed (`indextree`
keeps the slot but marks it removed). -/
def is_removed (d : XmlData) (n : NodeId) : Bool :=
  (nodeOf d n).removed

/-- The error type (`Error` in `error.rs`), restricted to the variants the
arena, the mutation engine and the serializer produce. `error.rs` declares
`MissingPrefix(NamespaceId)` for the missing-prefix condition while
`serialize.rs` constructs it as `NoPrefixForNamespace` carrying the
namespace URI string; we keep both spellings. -/
inductive Error where
  | InvalidOperation : String → Error
  | InvalidComment : String → Error
  | InvalidTarget : String → Error
  | MissingPrefix : NamespaceId → Error
  | NoPrefixForNamespace : String → Error
  deriving Repr, DecidableEq

/-- Update one arena slot in place; a no-op out of range. -/
def setNode (d : XmlData) (n : NodeId) (f : ArenaNode → ArenaNode) : XmlData :=
  { d with arena := d.arena.set n (f (nodeOf d n)) }

/-- Mark a slot destroyed (the removal flag `indextree` sets on `remove`). -/
def markRemoved (d : XmlData) (n : NodeId) : XmlData :=
  setNode d n (fun a => { a with removed := true })

/-- Unlink a node from its parent (`indextree` `detach`): erase it from the
parent's child list and clear its parent link. Children are retained. -/
def detachNode (d : XmlData) (n : NodeId) : XmlData :=
  match parent d n with
  | none => d
  | some p =>
    let d1 := setNode d p (fun a => { a with children := a.children.erase n })
    setNode d1 n (fun a => { a with parent := none })

/-- Link `c` as the last child of `p` (`indextree` `append`; the checked
variant additionally rejects self/ancestor/removed arguments, cases no
verified scenario reaches). -/
def appendNode (d : XmlData) (p c : NodeId) : XmlData :=
  let d1 := detachNode d c
  let d2 := setNode d1 p (fun a => { a with children := a.children ++ [c] })
  setNode d2 c (fun a => { a with parent := some p })

/-- Link `c` as the first child of `p` (`indextree` `prepend`). -/
def prependNode (d : XmlData) (p c : NodeId) : XmlData :=
  let d1 := detachNode d c
  let d2 := setNode d1 p (fun a => { a with children := c :: a.children })
  setNode d2 c (fun a => { a with parent := some p })

/-- Insert `c` directly after `ref` in a child list. -/
def listInsertAfter : List NodeId → NodeId → NodeId → List NodeId
  | [], _, _ => []
  | a :: rest, ref, c => if a = ref then a :: c :: rest else a :: listInsertAfter rest ref c

/-- Insert `c` directly before `ref` in a child list. -/
def listInsertBefore : List NodeId → NodeId → NodeId → List NodeId
  | [], _, _ => []
  | a :: rest, ref, c => if a = ref then c :: a :: rest else a :: listInsertBefore rest ref c

/-- Link `c` as the next sibling of `ref` (`indextree` `insert_after`). -/
def insertAfterNode (d : XmlData) (ref c : NodeId) : XmlData :=
  match parent d ref with
  | none => d
  | some p =>
    let d1 := detachNode d c
    let d2 := setNode d1 p (fun a => { a with children := listInsertAfter a.children ref c })
    setNode d2 c (fun a => { a with parent := some p })

/-- Link `c` as the previous sibling of `ref` (`indextree` `insert_before`). -/
def insertBeforeNode (d : XmlData) (ref c : NodeId) : XmlData :=
  match parent d ref with
  | none => d
  | some p =>
    let d1 := detachNode d c
    let d2 := setNode d1 p (fun a => { a with children := listInsertBefore a.children ref c })
    setNode d2 c (fun a => { a with parent := some p })

/-- Destroy a single node (`indextree` `NodeId::remove`): unlink it, then
mark its slot removed. -/
def removeNode (d : XmlData) (n : NodeId) : XmlData :=
  markRemoved (detachNode d n) n

/-- Pre-order list of a subtree's node ids, fuelled by recursion depth. -/
def descendantIds (d : XmlData) : Nat → NodeId → List NodeId
  | 0, n => [n]
  | fuel + 1, n => n :: (children d n).foldr (fun c acc => descendantIds d fuel c ++ acc) []

/-- Destroy a whole subtree (`indextree` `remove_subtree`): unlink its root
and mark every node of the subtree removed. -/
def removeSubtree (d : XmlData) (n : NodeId) : XmlData :=
  (descendantIds d d.arena.length n).foldl markRemoved (detachNode d n)

/-- Overwrite the payload of a Text node (`text_mut` followed by `set`);
leaves non-Text payloads untouched, as `text_mut` would return `None`. -/
def setTextValue (d : XmlData) (n : NodeId) (s : String) : XmlData :=
  setNode d n (fun a =>
    { a with value := match a.value with
      | XmlNode.Text _ => XmlNode.Text s
      | v => v })

/-- Allocate a new unattached slot (`new_node`), returning its handle and
the grown state. -/
def new_node (d : XmlData) (v : XmlNode) : NodeId × XmlData :=
  (d.arena.length, { d with arena := d.arena ++ [⟨none, [], false, v⟩] })

/-- The `new_text` constructor. -/
def new_text (d : XmlData) (s : String) : NodeId × XmlData :=
  new_node d (XmlNode.Text s)

/-- The `new_element` constructor. -/
def new_element (d : XmlData) (name_id : NameId) : NodeId × XmlData :=
  new_node d (XmlNode.Element { name_id := name_id, attributes := [], namespace_info := ⟨[], []⟩ })

/-- The `new_comment` constructor as it appears in `xmldata.rs` (the
construction-time validation body lives in the missing `xmlnode.rs`; see
the spec-modelled checked constructors below). -/
def new_comment (d : XmlData) (s : String) : NodeId × XmlData :=
  new_node d (XmlNode.Comment s)

/-- The `new_processing_instruction` constructor as it appears in
`xmldata.rs`. -/
def new_processing_instruction (d : XmlData) (target : String) (data : Option String) :
    NodeId × XmlData :=
  new_node d (XmlNode.ProcessingInstruction target data)

/-- The pre-insertion structural check (`add_structure_check`): resolve the
effective parent, then reject moving the Root, moving the document element,
and placing an Element or Text directly under the Root. -/
def add_structure_check (d : XmlData) (par : Option NodeId) (child : NodeId) :
    Except Error Unit :=
  match par with
  | none => Except.error (Error.InvalidOperation ("Cannot create siblings for document root"))
  | some p =>
    match node_type d child with
    | NodeType.Root => Except.error (Error.InvalidOperation ("Cannot move document root"))
    | NodeType.Element =>
      if is_under_root d child then
        Except.error (Error.InvalidOperation ("Cannot move root element"))
      else if is_root d p then
        Except.error (Error.InvalidOperation ("Cannot move extra element under document root"))
      else Except.ok ()
    | NodeType.Text =>
      if is_root d p then
        Except.error (Error.InvalidOperation ("Cannot move text under document root"))
      else Except.ok ()
    | NodeType.ProcessingInstruction => Except.ok ()
    | NodeType.Comment => Except.ok ()

/-- The pre-removal structural check (`remove_structure_check`): reject
removing the Root or the document element. -/
def remove_structure_check (d : XmlData) (n : NodeId) : Except Error Unit :=
  match node_type d n with
  | NodeType.Root => Except.error (Error.InvalidOperation ("Cannot remove document root"))
  | NodeType.Element =>
    if is_under_root d n then
      Except.error (Error.InvalidOperation ("Cannot remove root element"))
    else Except.ok ()
  | NodeType.Text => Except.ok ()
  | NodeType.ProcessingInstruction => Except.ok ()
  | NodeType.Comment => Except.ok ()

/-- Consolidation-on-insert (`add_consolidate_text_nodes`): if the inserted
node is Text and the previous future neighbor exists, merge into it when it
is Text and destroy the inserted node; only when no previous neighbor
exists is the next neighbor inspected. Returns whether consolidation
happened, plus the possibly-updated state. -/
def add_consolidate_text_nodes (d : XmlData) (node : NodeId)
    (prev_node next_node : Option NodeId) : Bool × XmlData :=
  match text d node with
  | none => (false, d)
  | some added_text =>
    match prev_node with
    | some prev =>
      match text d prev with
      | some s => (true, removeNode (setTextValue d prev (s ++ added_text)) node)
      | none => (false, d)
    | none =>
      match next_node with
      | some next =>
        match text d next with
        | some s => (true, removeNode (setTextValue d next (added_text ++ s)) node)
        | none => (false, d)
      | none => (false, d)

/-- Consolidation-on-removal (`remove_consolidate_text_nodes`): if both
captured neighbors exist and are Text, append the later one's content onto
the earlier one's and destroy the later node. -/
def remove_consolidate_text_nodes (d : XmlData)
    (prev_node next_node : Option NodeId) : Bool × XmlData :=
  match prev_node, next_node with
  | some prev, some next =>
    match text d prev, text d next with
    | some ps, some ns => (true, removeNode (setTextValue d prev (ps ++ ns)) next)
    | _, _ => (false, d)
  | _, _ => (false, d)

/-- The `append` operation: structural check, then consolidation against the
parent's last child, else normal linking. An error leaves the state as-is. -/
def append (d : XmlData) (par child : NodeId) : Except Error Unit × XmlData :=
  match add_structure_check d (some par) child with
  | Except.error e => (Except.error e, d)
  | Except.ok _ =>
    match add_consolidate_text_nodes d child (last_child d par) none with
    | (true, d1) => (Except.ok (), d1)
    | (false, d1) => (Except.ok (), appendNode d1 par child)

/-- The `prepend` operation. -/
def prepend (d : XmlData) (par child : NodeId) : Except Error Unit × XmlData :=
  match add_structure_check d (some par) child with
  | Except.error e => (Except.error e, d)
  | Except.ok _ =>
    match add_consolidate_text_nodes d child none (first_child d par) with
    | (true, d1) => (Except.ok (), d1)
    | (false, d1) => (Except.ok (), prependNode d1 par child)

/-- The `insert_after` operation. -/
def insert_after (d : XmlData) (reference_node new_sibling : NodeId) :
    Except Error Unit × XmlData :=
  match add_structure_check d (parent d reference_node) new_sibling with
  | Except.error e => (Except.error e, d)
  | Except.ok _ =>
    match add_consolidate_text_nodes d new_sibling (some reference_node)
        (next_sibling d reference_node) with
    | (true, d1) => (Except.ok (), d1)
    | (false, d1) => (Except.ok (), insertAfterNode d1 reference_node new_sibling)

/-- The `insert_before` operation. -/
def insert_before (d : XmlData) (reference_node new_sibling : NodeId) :
    Except Error Unit × XmlData :=
  match add_structure_check d (parent d reference_node) new_sibling with
  | Except.error e => (Except.error e, d)
  | Except.ok _ =>
    match add_consolidate_text_nodes d new_sibling (previous_sibling d reference_node)
        (some reference_node) with
    | (true, d1) => (Except.ok (), d1)
    | (false, d1) => (Except.ok (), insertBeforeNode d1 reference_node new_sibling)

/-- The `detach` operation: removal check, capture neighbors, unlink the
subtree (children retained), then consolidation-on-removal. -/
def detach (d : XmlData) (node : NodeId) : Except Error Unit × XmlData :=
  match remove_structure_check d node with
  | Except.error e => (Except.error e, d)
  | Except.ok _ =>
    let prev := previous_sibling d node
    let next := next_sibling d node
    let d1 := detachNode d node
    (Except.ok (), (remove_consolidate_text_nodes d1 prev next).2)

/-- The `remove` operation: like `detach` but recursively destroying the
subtree's storage. -/
def remove (d : XmlData) (node : NodeId) : Except Error Unit × XmlData :=
  match remove_structure_check d node with
  | Except.error e => (Except.error e, d)
  | Except.ok _ =>
    let prev := previous_sibling d node
    let next := next_sibling d node
    let d1 := removeSubtree d node
    (Except.ok (), (remove_consolidate_text_nodes d1 prev next).2)

/-- The `append_text` convenience form: allocate a Text node, then `append`. -/
def append_text (d : XmlData) (par : NodeId) (t : String) : Except Error Unit × XmlData :=
  let (n, d1) := new_text d t
  append d1 par n

/-- The `append_comment` convenience form. -/
def append_comment (d : XmlData) (par : NodeId) (s : String) : Except Error Unit × XmlData :=
  let (n, d1) := new_comment d s
  append d1 par n

/-- The `append_element` convenience form. -/
def append_element (d : XmlData) (par : NodeId) (name_id : NameId) :
    Except Error Unit × XmlData :=
  let (n, d1) := new_element d name_id
  append d1 par n

/-- The `append_processing_instruction` convenience form. -/
def append_processing_instruction (d : XmlData) (par : NodeId) (target : String)
    (data : Option String) : Except Error Unit × XmlData :=
  let (n, d1) := new_processing_instruction d target data
  append d1 par n

/-- Helper for scanning a character list for two consecutive dashes. -/
def hasDoubleDashAux : List Char → Bool
  | '-' :: '-' :: _ => true
  | _ :: rest => hasDoubleDashAux rest
  | [] => false

/-- Whether a string contains the two-character sequence of two dashes. -/
def hasDoubleDash (s : String) : Bool :=
  hasDoubleDashAux s.toList

/-- Modelled from the spec: the construction-time comment validation done by
`Comment::new` in the missing `xmlnode.rs`. Spec section 7: comment text
containing the forbidden double-dash sequence is rejected at construction
time, before the node can enter the tree, with the `InvalidComment` error
declared in `error.rs`. -/
def new_comment_checked (d : XmlData) (s : String) : Except Error (NodeId × XmlData) :=
  if hasDoubleDash s then Except.error (Error.InvalidComment s)
  else Except.ok (new_comment d s)

/-- Whether a string is a case variant of the literal xml, by comparing
its characters lowercased. -/
def lowerIsXml (t : String) : Bool :=
  t.data.map Char.toLower == "xml".data

/-- Modelled from the spec: the construction-time target validation done by
`ProcessingInstruction::new` in the missing `xmlnode.rs`. Spec section 7: a
target equal to any case variant of the literal xml is rejected at
construction time with the `InvalidTarget` error declared in `error.rs`. -/
def new_processing_instruction_checked (d : XmlData) (target : String)
    (data : Option String) : Except Error (NodeId × XmlData) :=
  if lowerIsXml target then Except.error (Error.InvalidTarget target)
  else Except.ok (new_processing_instruction d target data)

/-- Namespace URI string for an interned id (`namespace_lookup.get_value`). -/
def nsValue (d : XmlData) (i : NamespaceId) : String :=
  d.namespace_lookup.getD i (String.mk [])

/-- Prefix string for an interned id (`prefix_lookup.get_value`). -/
def prefixValue (d : XmlData) (i : PrefixId) : String :=
  d.prefix_lookup.getD i (String.mk [])

/-- Qualified name for an interned id (`name_lookup.get_value`). -/
def nameValue (d : XmlData) (i : NameId) : Name :=
  d.name_lookup.getD i default

/-- The serializer's stack of namespace scopes (`prefix_stack` of
`FullnameSerializer`); the head of the list is the top of the stack. -/
abbrev ScopeStack := List NsMap

/-- Binding of a namespace in the top scope, `none` when the stack is empty
or the namespace is unbound there; this is the lookup `fullname` performs. -/
def topGet (st : ScopeStack) (ns : NamespaceId) : Option PrefixId :=
  match st with
  | [] => none
  | top :: _ => mapGet top ns

/-- Scope push (`FullnameSerializer::push`): the new top is the element's
own map when the stack was empty, else a copy of the current top overlaid
with the element's own bindings (the element's bindings win). -/
def fsPush (st : ScopeStack) (m : NsMap) : ScopeStack :=
  match st with
  | [] => [m]
  | top :: _ => extendMap top m :: st

/-- Scope pop (`FullnameSerializer::pop`). -/
def fsPop (st : ScopeStack) : ScopeStack :=
  st.drop 1

/-- Name resolution (`FullnameSerializer::fullname`): a name in the
distinguished no-namespace is its local string; otherwise the namespace is
looked up in the top scope only, failing when absent, serializing bare for
the empty prefix and as a prefixed name otherwise. -/
def fullname (d : XmlData) (st : ScopeStack) (name_id : NameId) : Except Error String :=
  let nm := nameValue d name_id
  if nm.namespace_id = d.no_namespace_id then Except.ok nm.name
  else
    match topGet st nm.namespace_id with
    | none => Except.error (Error.NoPrefixForNamespace (nsValue d nm.namespace_id))
    | some pid =>
      if pid = d.empty_prefix_id then Except.ok nm.name
      else Except.ok (prefixValue d pid ++ ":" ++ nm.name)

/-- Escape one character for text/attribute output. Modelled from the spec:
the shared escaping routine of the missing `entity.rs` escapes the
ampersand, the angle brackets and the double quote. -/
def escapeChar (c : Char) : String :=
  if c = '&' then "&amp;"
  else if c = '<' then "&lt;"
  else if c = '>' then "&gt;"
  else if c = '\"' then "&quot;"
  else String.singleton c

/-- The shared text-escaping rule (`serialize_text` of the missing
`entity.rs`), modelled from the spec. -/
def serialize_text (s : String) : String :=
  String.join (s.toList.map escapeChar)

/-- Emission of an element's namespace declarations, in declaration order:
a bare `xmlns` attribute for the empty prefix, a prefixed one otherwise. -/
def declsOut (d : XmlData) (l : List (PrefixId × NamespaceId)) : String :=
  l.foldl (fun acc pv =>
    if pv.1 = d.empty_prefix_id then
      acc ++ " xmlns=\"" ++ nsValue d pv.2 ++ "\""
    else
      acc ++ " xmlns:" ++ prefixValue d pv.1 ++ "=\"" ++ nsValue d pv.2 ++ "\"") (String.mk [])

/-- Emission of an element's attributes, in insertion order, resolving each
name in the current scope and escaping the value. -/
def attrsOut (d : XmlData) (st : ScopeStack) : List (NameId × String) → Except Error String
  | [] => Except.ok (String.mk [])
  | (nid, v) :: rest =>
    match fullname d st nid with
    | Except.error e => Except.error e
    | Except.ok fn =>
      match attrsOut d st rest with
      | Except.error e => Except.error e
      | Except.ok r => Except.ok (" " ++ fn ++ "=\"" ++ serialize_text v ++ "\"" ++ r)

/-- A tagged traversal edge (`XmlNodeEdge` / `indextree::NodeEdge`). -/
inductive XmlNodeEdge where
  | Start : NodeId → XmlNodeEdge
  | End : NodeId → XmlNodeEdge
  deriving Repr, DecidableEq

/-- Fuelled pre/post-order edge traversal of a subtree. -/
def traverseAux (d : XmlData) : Nat → NodeId → List XmlNodeEdge
  | 0, n => [XmlNodeEdge.Start n, XmlNodeEdge.End n]
  | fuel + 1, n =>
    XmlNodeEdge.Start n ::
      (children d n).foldr (fun c acc => traverseAux d fuel c ++ acc) [XmlNodeEdge.End n]

/-- The `traverse` iterator: every node of the subtree yields a Start edge
and an End edge, children visited in order between the two. The arena size
bounds the tree depth and serves as fuel. -/
def traverse (d : XmlData) (n : NodeId) : List XmlNodeEdge :=
  traverseAux d d.arena.length n

/-- Serializer action on an Enter edge (`handle_edge_start`): Root emits
nothing; an Element pushes a scope if it declares bindings, resolves its
name, emits the start tag with declarations and attributes, and closes it
with a self-closing slash exactly when it has no children; Text, Comment
and ProcessingInstruction emit their textual forms. -/
def handle_edge_start (d : XmlData) (n : NodeId) (st : ScopeStack) :
    Except Error (String × ScopeStack) :=
  match xml_node d n with
  | XmlNode.Root => Except.ok (String.mk [], st)
  | XmlNode.Element e =>
    let st1 := if e.namespace_info.nsToPrefixMap.isEmpty then st
      else fsPush st e.namespace_info.nsToPrefixMap
    match fullname d st1 e.name_id with
    | Except.error err => Except.error err
    | Except.ok fn =>
      match attrsOut d st1 e.attributes with
      | Except.error err => Except.error err
      | Except.ok aOut =>
        let tl := if (first_child d n).isNone then "/>" else ">"
        Except.ok ("<" ++ fn ++ declsOut d e.namespace_info.declList ++ aOut ++ tl, st1)
  | XmlNode.Text s => Except.ok (serialize_text s, st)
  | XmlNode.Comment s => Except.ok ("<!--" ++ s ++ "-->", st)
  | XmlNode.ProcessingInstruction t dta =>
    match dta with
    | some x => Except.ok ("<?" ++ t ++ " " ++ x ++ "?>", st)
    | none => Except.ok ("<?" ++ t ++ "?>", st)

/-- Serializer action on a Leave edge (`handle_edge_end`): only an Element
emits anything, and only if it has at least one child — the closing tag,
whose name is resolved before the element's scope (if it pushed one) is
popped. -/
def handle_edge_end (d : XmlData) (n : NodeId) (st : ScopeStack) :
    Except Error (String × ScopeStack) :=
  match xml_node d n with
  | XmlNode.Element e =>
    let closeRes : Except Error String :=
      if (first_child d n).isSome then
        match fullname d st e.name_id with
        | Except.error err => Except.error err
        | Except.ok fn => Except.ok ("</" ++ fn ++ ">")
      else Except.ok (String.mk [])
    match closeRes with
    | Except.error err => Except.error err
    | Except.ok out =>
      let st1 := if e.namespace_info.nsToPrefixMap.isEmpty then st else fsPop st
      Except.ok (out, st1)
  | _ => Except.ok (String.mk [], st)

/-- Dispatch of one traversal edge to the corresponding handler. -/
def handleEdge (d : XmlData) (e : XmlNodeEdge) (st : ScopeStack) :
    Except Error (String × ScopeStack) :=
  match e with
  | XmlNodeEdge.Start n => handle_edge_start d n st
  | XmlNodeEdge.End n => handle_edge_end d n st

/-- The serializer loop of `serialize_node`: handle edges left to right,
threading the scope stack; the first failing edge aborts the whole call. -/
def serializeEdges (d : XmlData) : List XmlNodeEdge → ScopeStack → Except Error String
  | [], _ => Except.ok (String.mk [])
  | e :: es, st =>
    match handleEdge d e st with
    | Except.error err => Except.error err
    | Except.ok (out, st1) =>
      match serializeEdges d es st1 with
      | Except.error err => Except.error err
      | Except.ok rest => Except.ok (out ++ rest)

/-- The `serialize_to_string` entry point: serialize the subtree rooted at
`n` starting from an empty scope stack. -/
def serialize_to_string (d : XmlData) (n : NodeId) : Except Error String :=
  serializeEdges d (traverse d n) []

/-- Repeated `append_text` calls on the same parent, in call order. -/
def appendTexts (d : XmlData) (p : NodeId) (ts : List String) : XmlData :=
  ts.foldl (fun acc t => (append_text acc p t).2) d

/-- The Text children of a node, in document order. -/
def textChildren (d : XmlData) (p : NodeId) : List NodeId :=
  (children d p).filter (fun c => is_text d c)

/-- Concatenation of a list of strings in order. -/
def strConcat : List String → String
  | [] => ""
  | t :: ts => t ++ strConcat ts

/-- An element node with the given interned name and no attributes or
namespace declarations. -/
def mkElem (nid : NameId) : XmlNode :=
  XmlNode.Element ⟨nid, [], ⟨[], []⟩⟩

/-- An element node with the given interned name, namespace-to-prefix map
and ordered declaration list, and no attributes. -/
def mkElemNs (nid : NameId) (m : NsMap) (dl : List (PrefixId × NamespaceId)) : XmlNode :=
  XmlNode.Element ⟨nid, [], ⟨m, dl⟩⟩

/-- Document `<e><!--c-->b</e>` under a root: element node 1 with a Comment
child (node 2) followed by a Text child (node 3). -/
def c1doc : XmlData :=
  { arena := [⟨none, [1], false, XmlNode.Root⟩,
              ⟨some 0, [2, 3], false, mkElem 0⟩,
              ⟨some 1, [], false, XmlNode.Comment "c"⟩,
              ⟨some 1, [], false, XmlNode.Text "b"⟩],
    namespace_lookup := [""], prefix_lookup := [""],
    name_lookup := [⟨"e", 0⟩], no_namespace_id := 0, empty_prefix_id := 0 }

/-- Document whose subtree under the root element is a namespaced name with
no declaration anywhere: element `A` in namespace `U` (node 1) with a Text
child, and no binding for `U`. -/
def c2doc : XmlData :=
  { arena := [⟨none, [1], false, XmlNode.Root⟩,
              ⟨some 0, [2], false, mkElem 0⟩,
              ⟨some 1, [], false, XmlNode.Text "x"⟩],
    namespace_lookup := ["", "U"], prefix_lookup := ["", "p"],
    name_lookup := [⟨"A", 1⟩], no_namespace_id := 0, empty_prefix_id := 0 }

/-- Minimal document: Root (node 0) whose only child is the document
element (node 1). -/
def c3doc : XmlData :=
  { arena := [⟨none, [1], false, XmlNode.Root⟩,
              ⟨some 0, [], false, mkElem 0⟩],
    namespace_lookup := [""], prefix_lookup := [""],
    name_lookup := [⟨"e", 0⟩], no_namespace_id := 0, empty_prefix_id := 0 }

/-- Document with one pre-existing Text child `x` under the document
element, for exercising `append_text` against a parent that already holds
text. -/
def c5doc : XmlData :=
  { arena := [⟨none, [1], false, XmlNode.Root⟩,
              ⟨some 0, [2], false, mkElem 0⟩,
              ⟨some 1, [], false, XmlNode.Text "x"⟩],
    namespace_lookup := [""], prefix_lookup := [""],
    name_lookup := [⟨"e", 0⟩], no_namespace_id := 0, empty_prefix_id := 0 }

/-- Document element with no children, for the amended consolidation
property. -/
def c5okDoc : XmlData :=
  { arena := [⟨none, [1], false, XmlNode.Root⟩,
              ⟨some 0, [], false, mkElem 0⟩],
    namespace_lookup := [""], prefix_lookup := [""],
    name_lookup := [⟨"e", 0⟩], no_namespace_id := 0, empty_prefix_id := 0 }

/-- Document element whose children are `[Text a, x, Text b]` for a given
middle node payload `x` (nodes 2, 3, 4). -/
def c6doc (x : XmlNode) (a b : String) : XmlData :=
  { arena := [⟨none, [1], false, XmlNode.Root⟩,
              ⟨some 0, [2, 3, 4], false, mkElem 0⟩,
              ⟨some 1, [], false, XmlNode.Text a⟩,
              ⟨some 1, [], false, x⟩,
              ⟨some 1, [], false, XmlNode.Text b⟩],
    namespace_lookup := [""], prefix_lookup := [""],
    name_lookup := [⟨"e", 0⟩], no_namespace_id := 0, empty_prefix_id := 0 }

/-- Minimal document for the under-Root placement checks. -/
def c7doc : XmlData :=
  { arena := [⟨none, [1], false, XmlNode.Root⟩,
              ⟨some 0, [], false, mkElem 0⟩],
    namespace_lookup := [""], prefix_lookup := [""],
    name_lookup := [⟨"e", 0⟩], no_namespace_id := 0, empty_prefix_id := 0 }

/-- Namespace-scoping document: the document element `A` (no namespace)
declares `p -> U`; its children are `B` in `U` declaring nothing, `C` in
`V` declaring the override `p -> V` with one child `D` in `V`, and then
`E` in `U` declaring nothing. Namespace ids: 1 = `U`, 2 = `V`; prefix id
1 = `p`. -/
def c8doc : XmlData :=
  { arena := [⟨none, [1], false, XmlNode.Root⟩,
              ⟨some 0, [2, 3, 5], false, mkElemNs 0 [(1, 1)] [(1, 1)]⟩,
              ⟨some 1, [], false, mkElemNs 1 [] []⟩,
              ⟨some 1, [4], false, mkElemNs 2 [(2, 1)] [(1, 2)]⟩,
              ⟨some 3, [], false, mkElemNs 3 [] []⟩,
              ⟨some 1, [], false, mkElemNs 4 [] []⟩],
    namespace_lookup := ["", "U", "V"], prefix_lookup := ["", "p"],
    name_lookup := [⟨"A", 0⟩, ⟨"B", 1⟩, ⟨"C", 2⟩, ⟨"D", 2⟩, ⟨"E", 1⟩],
    no_namespace_id := 0, empty_prefix_id := 0 }

/-- Childless document element `e`, serialized self-closing. -/
def c9aDoc : XmlData :=
  { arena := [⟨none, [1], false, XmlNode.Root⟩,
              ⟨some 0, [], false, mkElem 0⟩],
    namespace_lookup := [""], prefix_lookup := [""],
    name_lookup := [⟨"e", 0⟩], no_namespace_id := 0, empty_prefix_id := 0 }

/-- Document element `a` with one Text child `t`. -/
def c9bDoc : XmlData :=
  { arena := [⟨none, [1], false, XmlNode.Root⟩,
              ⟨some 0, [2], false, mkElem 0⟩,
              ⟨some 1, [], false, XmlNode.Text "t"⟩],
    namespace_lookup := [""], prefix_lookup := [""],
    name_lookup := [⟨"a", 0⟩], no_namespace_id := 0, empty_prefix_id := 0 }

/-- Document element `A` in namespace `U`, itself declaring the only
binding `p -> U` and holding one Text child: its closing tag can only
resolve if the name is resolved before the element's scope is popped. -/
def c9cDoc : XmlData :=
  { arena := [⟨none, [1], false, XmlNode.Root⟩,
              ⟨some 0, [2], false, mkElemNs 0 [(1, 1)] [(1, 1)]⟩,
              ⟨some 1, [], false, XmlNode.Text "x"⟩],
    namespace_lookup := ["", "U"], prefix_lookup := ["", "p"],
    name_lookup := [⟨"A", 1⟩], no_namespace_id := 0, empty_prefix_id := 0 }

/-- Document element with one Text child `a` (nodes 0, 1, 2), for the
consolidating-append scenario. -/
def c10doc (a : String) : XmlData :=
  { arena := [⟨none, [1], false, XmlNode.Root⟩,
              ⟨some 0, [2], false, mkElem 0⟩,
              ⟨some 1, [], false, XmlNode.Text a⟩],
    namespace_lookup := [""], prefix_lookup := [""],
    name_lookup := [⟨"e", 0⟩], no_namespace_id := 0, empty_prefix_id := 0 }


/-- Being the Root is the same as having Root node type. -/
theorem is_root_eq_true_iff (d : XmlData) (n : NodeId) :
    is_root d n = true ↔ node_type d n = NodeType.Root := by
  simp [is_root]

/-- Updating one slot leaves the arena size unchanged. -/
theorem arena_length_setNode (d : XmlData) (n : NodeId) (f : ArenaNode → ArenaNode) :
    (setNode d n f).arena.length = d.arena.length := by
  simp [setNode]

/-- Updating one slot leaves every other slot unchanged. -/
theorem nodeOf_setNode_ne (d : XmlData) (n m : NodeId) (f : ArenaNode → ArenaNode)
    (h : m ≠ n) : nodeOf (setNode d n f) m = nodeOf d m := by
  simp [nodeOf, setNode, List.getD, List.getElem?_set_ne (Ne.symm h)]

/-- Updating an in-range slot applies the update to it. -/
theorem nodeOf_setNode_self (d : XmlData) (n : NodeId) (f : ArenaNode → ArenaNode)
    (h : n < d.arena.length) : nodeOf (setNode d n f) n = f (nodeOf d n) := by
  simp [nodeOf, setNode, List.getD, List.getElem?_set_self, h, List.getElem?_eq_getElem]

/-- Allocating a Text node grows the arena by one slot. -/
theorem arena_length_new_text (d : XmlData) (s : String) :
    ((new_text d s).2).arena.length = d.arena.length + 1 := by
  simp [new_text, new_node]

/-- Allocating a Text node leaves existing slots unchanged. -/
theorem nodeOf_new_text_old (d : XmlData) (s : String) (m : NodeId)
    (h : m < d.arena.length) : nodeOf (new_text d s).2 m = nodeOf d m := by
  simp only [new_text, new_node, nodeOf]
  exact List.getD_append _ _ _ _ h

/-- The freshly allocated Text node is unattached and carries its string. -/
theorem nodeOf_new_text_fresh (d : XmlData) (s : String) :
    nodeOf (new_text d s).2 d.arena.length = ⟨none, [], false, XmlNode.Text s⟩ := by
  simp [new_text, new_node, nodeOf, List.getD, List.getElem?_append_right]

/-- Text payload only depends on the node's slot. -/
theorem text_congr {d dd : XmlData} {n : NodeId} (h : nodeOf dd n = nodeOf d n) :
    text dd n = text d n := by
  simp [text, xml_node, h]

/-- Root-ness only depends on the node's slot. -/
theorem is_root_congr {d dd : XmlData} {n : NodeId} (h : nodeOf dd n = nodeOf d n) :
    is_root dd n = is_root d n := by
  simp [is_root, node_type, xml_node, h]

/-- Text-ness only depends on the node's slot. -/
theorem is_text_congr {d dd : XmlData} {n : NodeId} (h : nodeOf dd n = nodeOf d n) :
    is_text dd n = is_text d n := by
  simp [is_text, node_type, xml_node, h]

/-- The child list only depends on the node's slot. -/
theorem children_congr {d dd : XmlData} {n : NodeId} (h : nodeOf dd n = nodeOf d n) :
    children dd n = children d n := by
  simp [children, h]

/-- A non-Text node has no text payload. -/
theorem text_none_of_not_is_text (d : XmlData) (n : NodeId) (h : is_text d n = false) :
    text d n = none := by
  cases hx : xml_node d n <;> simp_all [text, is_text, node_type, XmlNode.node_type]

/-- A node with a text payload stores the Text variant. -/
theorem xml_node_of_text_some {d : XmlData} {n : NodeId} {s : String}
    (h : text d n = some s) : (nodeOf d n).value = XmlNode.Text s := by
  unfold text xml_node at h
  cases hx : (nodeOf d n).value <;> rw [hx] at h <;> simp_all

/-- A node with a text payload is a Text node. -/
theorem is_text_of_text_some {d : XmlData} {n : NodeId} {s : String}
    (h : text d n = some s) : is_text d n = true := by
  simp [is_text, node_type, xml_node, xml_node_of_text_some h, XmlNode.node_type]

/-- Last-wins lookup over a concatenation: the right map is consulted
first, and the left one only when the right has no binding. -/
theorem mapGet_append (l1 l2 : NsMap) (ns : NamespaceId) :
    mapGet (l1 ++ l2) ns =
      match mapGet l2 ns with
      | some r => some r
      | none => mapGet l1 ns := by
  induction l1 with
  | nil => simp [mapGet]; cases mapGet l2 ns <;> simp
  | cons kv rest ih =>
    obtain ⟨k, v⟩ := kv
    simp only [List.cons_append, mapGet, List.append_eq]
    rw [ih]
    cases hl : mapGet l2 ns <;> cases hr : mapGet rest ns <;> simp [hl, hr]


/-- Equation for `append_text` when the parent's last child is a Text node
holding `s`: the structural check passes, consolidation-on-insert fires,
and the state is the allocation followed by the merge into `n` and the
destruction of the fresh node. -/
theorem append_text_eq_merge (d : XmlData) (p n : NodeId) (cs : List NodeId) (s t : String)
    (hp : p < d.arena.length) (hn : n < d.arena.length)
    (hroot : is_root d p = false) (hch : children d p = cs ++ [n])
    (htext : text d n = some s) :
    append_text d p t =
      (Except.ok (),
        markRemoved (setTextValue (new_text d t).2 n (s ++ t)) d.arena.length) := by
  have hk := nodeOf_new_text_fresh d t
  have hop : nodeOf (new_text d t).2 p = nodeOf d p := nodeOf_new_text_old d t p hp
  have hon : nodeOf (new_text d t).2 n = nodeOf d n := nodeOf_new_text_old d t n hn
  have hktype : node_type (new_text d t).2 d.arena.length = NodeType.Text := by
    simp [node_type, xml_node, hk, XmlNode.node_type]
  have hrootp : is_root (new_text d t).2 p = false := by
    rw [is_root_congr hop]; exact hroot
  have hcheck : add_structure_check (new_text d t).2 (some p) d.arena.length
      = Except.ok () := by
    simp [add_structure_check, hktype, hrootp]
  have hlast : last_child (new_text d t).2 p = some n := by
    rw [last_child, children_congr hop]
    rw [show children d p = cs ++ [n] from hch]
    simp
  have htk : text (new_text d t).2 d.arena.length = some t := by
    simp [text, xml_node, hk]
  have htn : text (new_text d t).2 n = some s := by
    rw [text_congr hon]; exact htext
  have hparentk : parent (setTextValue (new_text d t).2 n (s ++ t)) d.arena.length
      = none := by
    rw [parent, setTextValue, nodeOf_setNode_ne _ _ _ _ (Nat.ne_of_gt hn), hk]
  have h0 : append_text d p t = append (new_text d t).2 p d.arena.length := rfl
  rw [h0]
  simp only [append, hcheck, hlast]
  simp only [add_consolidate_text_nodes, htk, htn]
  simp only [removeNode, detachNode, hparentk]

/-- Equation for `append_text` when no child of the parent is a Text node:
consolidation-on-insert declines and the fresh node links normally. -/
theorem append_text_eq_first (d : XmlData) (p : NodeId) (t : String)
    (hp : p < d.arena.length) (hroot : is_root d p = false)
    (hvalid : ∀ c ∈ children d p, c < d.arena.length)
    (hnotext : ∀ c ∈ children d p, is_text d c = false) :
    append_text d p t =
      (Except.ok (), appendNode (new_text d t).2 p d.arena.length) := by
  have hk := nodeOf_new_text_fresh d t
  have hop : nodeOf (new_text d t).2 p = nodeOf d p := nodeOf_new_text_old d t p hp
  have hktype : node_type (new_text d t).2 d.arena.length = NodeType.Text := by
    simp [node_type, xml_node, hk, XmlNode.node_type]
  have hrootp : is_root (new_text d t).2 p = false := by
    rw [is_root_congr hop]; exact hroot
  have hcheck : add_structure_check (new_text d t).2 (some p) d.arena.length
      = Except.ok () := by
    simp [add_structure_check, hktype, hrootp]
  have htk : text (new_text d t).2 d.arena.length = some t := by
    simp [text, xml_node, hk]
  have hcons : add_consolidate_text_nodes (new_text d t).2 d.arena.length
      (last_child (new_text d t).2 p) none = (false, (new_text d t).2) := by
    rw [last_child, children_congr hop]
    cases hc : (children d p).getLast? with
    | none =>
      simp only [add_consolidate_text_nodes, htk]
    | some c =>
      have hcmem : c ∈ children d p := List.mem_of_mem_getLast? hc
      have hclen := hvalid c hcmem
      have hctext : text (new_text d t).2 c = none := by
        rw [text_congr (nodeOf_new_text_old d t c hclen)]
        exact text_none_of_not_is_text d c (hnotext c hcmem)
      simp only [add_consolidate_text_nodes, htk, hctext]
  have h0 : append_text d p t = append (new_text d t).2 p d.arena.length := rfl
  rw [h0]
  simp only [append, hcheck, hcons]

/-- State facts after a first `append_text` on a parent without Text
children: the fresh node is appended as last child and everything else is
untouched. -/
theorem append_text_first_facts (d : XmlData) (p : NodeId) (t : String)
    (hp : p < d.arena.length) (hroot : is_root d p = false)
    (hvalid : ∀ c ∈ children d p, c < d.arena.length)
    (hnotext : ∀ c ∈ children d p, is_text d c = false) :
    (append_text d p t).1 = Except.ok () ∧
    ((append_text d p t).2).arena.length = d.arena.length + 1 ∧
    nodeOf (append_text d p t).2 p =
      { nodeOf d p with children := children d p ++ [d.arena.length] } ∧
    text (append_text d p t).2 d.arena.length = some t ∧
    (∀ m, m < d.arena.length → m ≠ p → nodeOf (append_text d p t).2 m = nodeOf d m) := by
  have hk := nodeOf_new_text_fresh d t
  have hop : nodeOf (new_text d t).2 p = nodeOf d p := nodeOf_new_text_old d t p hp
  have heq := append_text_eq_first d p t hp hroot hvalid hnotext
  rw [heq]
  have hpk : p ≠ d.arena.length := Nat.ne_of_lt hp
  have hparentk : parent (new_text d t).2 d.arena.length = none := by
    rw [parent, hk]
  have hdet : detachNode (new_text d t).2 d.arena.length = (new_text d t).2 := by
    rw [detachNode, hparentk]
  have hlen1 : ((new_text d t).2).arena.length = d.arena.length + 1 :=
    arena_length_new_text d t
  refine ⟨rfl, ?_, ?_, ?_, ?_⟩
  · simp [appendNode, hdet, arena_length_setNode, hlen1]
  · have hplt : p < ((new_text d t).2).arena.length := by
      rw [hlen1]; exact Nat.lt_succ_of_lt hp
    rw [appendNode, hdet]
    rw [nodeOf_setNode_ne _ _ _ _ hpk]
    rw [nodeOf_setNode_self _ _ _ hplt]
    rw [hop]
    rfl
  · rw [text, xml_node, appendNode, hdet]
    rw [nodeOf_setNode_self _ _ _ (by simp [arena_length_setNode, hlen1])]
    rw [nodeOf_setNode_ne _ _ _ _ (Ne.symm hpk), hk]
  · intro m hm hmp
    rw [appendNode, hdet]
    rw [nodeOf_setNode_ne _ _ _ _ (Nat.ne_of_lt hm)]
    rw [nodeOf_setNode_ne _ _ _ _ hmp]
    exact nodeOf_new_text_old d t m hm

/-- State facts after an `append_text` that merges into the Text last child
`n`: the parent's child list is untouched, `n` accumulates the new content,
and only the fresh (destroyed) slot is new. -/
theorem append_text_merge_facts (d : XmlData) (p n : NodeId) (cs : List NodeId) (s t : String)
    (hp : p < d.arena.length) (hn : n < d.arena.length)
    (hroot : is_root d p = false) (hch : children d p = cs ++ [n])
    (htext : text d n = some s) :
    (append_text d p t).1 = Except.ok () ∧
    ((append_text d p t).2).arena.length = d.arena.length + 1 ∧
    nodeOf (append_text d p t).2 n =
      { nodeOf d n with value := XmlNode.Text (s ++ t) } ∧
    (∀ m, m < d.arena.length → m ≠ n → nodeOf (append_text d p t).2 m = nodeOf d m) := by
  have hk := nodeOf_new_text_fresh d t
  have hon : nodeOf (new_text d t).2 n = nodeOf d n := nodeOf_new_text_old d t n hn
  have heq := append_text_eq_merge d p n cs s t hp hn hroot hch htext
  rw [heq]
  have hnk : n ≠ d.arena.length := Nat.ne_of_lt hn
  have hlen1 : ((new_text d t).2).arena.length = d.arena.length + 1 :=
    arena_length_new_text d t
  refine ⟨rfl, ?_, ?_, ?_⟩
  · simp [markRemoved, setTextValue, arena_length_setNode, hlen1]
  · have hnlt : n < ((new_text d t).2).arena.length := by
      rw [hlen1]; exact Nat.lt_succ_of_lt hn
    rw [markRemoved, nodeOf_setNode_ne _ _ _ _ hnk]
    rw [setTextValue, nodeOf_setNode_self _ _ _ hnlt]
    rw [hon, xml_node_of_text_some htext]
  · intro m hm hmn
    rw [markRemoved, nodeOf_setNode_ne _ _ _ _ (Nat.ne_of_lt hm)]
    rw [setTextValue, nodeOf_setNode_ne _ _ _ _ hmn]
    exact nodeOf_new_text_old d t m hm

/-- Induction over a run of `append_text` calls merging into the Text last
child `n`: the child list stays fixed and `n` accumulates the concatenation
of the run. -/
theorem appendTexts_merge_facts (ts : List String) :
    ∀ (d : XmlData) (p n : NodeId) (cs : List NodeId) (s : String),
      p < d.arena.length → n < d.arena.length → n ≠ p → is_root d p = false →
      children d p = cs ++ [n] → text d n = some s →
      children (appendTexts d p ts) p = cs ++ [n] ∧
      text (appendTexts d p ts) n = some (s ++ strConcat ts) ∧
      d.arena.length ≤ ((appendTexts d p ts)).arena.length ∧
      (∀ m, m < d.arena.length → m ≠ n → nodeOf (appendTexts d p ts) m = nodeOf d m) := by
  induction ts with
  | nil =>
    intro d p n cs s hp hn hnp hroot hch htext
    refine ⟨hch, ?_, le_refl _, fun m _ _ => rfl⟩
    simpa [strConcat] using htext
  | cons t ts ih =>
    intro d p n cs s hp hn hnp hroot hch htext
    have hstep := append_text_merge_facts d p n cs s t hp hn hroot hch htext
    obtain ⟨-, hlen, hnodn, hpres⟩ := hstep
    have hAT : appendTexts d p (t :: ts) = appendTexts (append_text d p t).2 p ts := rfl
    set d1 := (append_text d p t).2 with hd1
    have hp1 : p < d1.arena.length := by rw [hlen]; exact Nat.lt_succ_of_lt hp
    have hn1 : n < d1.arena.length := by rw [hlen]; exact Nat.lt_succ_of_lt hn
    have hnodp : nodeOf d1 p = nodeOf d p := hpres p hp (Ne.symm hnp)
    have hroot1 : is_root d1 p = false := by rw [is_root_congr hnodp]; exact hroot
    have hch1 : children d1 p = cs ++ [n] := by rw [children_congr hnodp]; exact hch
    have htext1 : text d1 n = some (s ++ t) := by
      simp [text, xml_node, hnodn]
    have hrec := ih d1 p n cs (s ++ t) hp1 hn1 hnp hroot1 hch1 htext1
    obtain ⟨h1, h2, h3, h4⟩ := hrec
    rw [hAT]
    refine ⟨h1, ?_, ?_, ?_⟩
    · rw [h2]
      simp [strConcat, String.append_assoc]
    · calc d.arena.length ≤ d1.arena.length := by rw [hlen]; exact Nat.le_succ _
        _ ≤ _ := h3
    · intro m hm hmn
      rw [h4 m (by rw [hlen]; exact Nat.lt_succ_of_lt hm) hmn]
      exact hpres m hm hmn


/-- Claim C1: evaluation of the mutation engine at a concrete input where
the no-adjacent-Text invariant breaks. In `c1doc` the element's children
are `[Comment, Text b]`; inserting a fresh Text node (handle 4) before the
Text node succeeds, links it normally (consolidation-on-insert inspects
only the previous neighbor, the Comment), and leaves the two Text nodes 4
and 3 as adjacent siblings — contradicting the claimed invariant. -/
theorem xot_c1_insert_before_creates_adjacent_text :
    (insert_before (new_text c1doc "a").2 3 4).1 = Except.ok () ∧
    children (insert_before (new_text c1doc "a").2 3 4).2 1 = [2, 4, 3] ∧
    is_text (insert_before (new_text c1doc "a").2 3 4).2 4 = true ∧
    is_text (insert_before (new_text c1doc "a").2 3 4).2 3 = true ∧
    next_sibling (insert_before (new_text c1doc "a").2 3 4).2 4 = some 3 := by
  exact ⟨rfl, rfl, rfl, rfl, rfl⟩

/-- Claim C2: `fullname` returns the local string unchanged for the
distinguished no-namespace; for a real namespace it fails exactly when the
scope stack is empty or the namespace is unbound in the top scope, the
failure carries the missing-prefix error with the namespace URI, and a
failing edge aborts the serializer loop with that error (no further output
is produced). -/
theorem xot_c2_fullname_resolution (d : XmlData) (st : ScopeStack) (nid : NameId)
    (e : XmlNodeEdge) (es : List XmlNodeEdge) (err : Error) :
    ((nameValue d nid).namespace_id = d.no_namespace_id →
      fullname d st nid = Except.ok (nameValue d nid).name) ∧
    ((nameValue d nid).namespace_id ≠ d.no_namespace_id →
      ((∃ er, fullname d st nid = Except.error er) ↔
        topGet st (nameValue d nid).namespace_id = none)) ∧
    ((nameValue d nid).namespace_id ≠ d.no_namespace_id →
      topGet st (nameValue d nid).namespace_id = none →
      fullname d st nid =
        Except.error (Error.NoPrefixForNamespace (nsValue d (nameValue d nid).namespace_id))) ∧
    (topGet st (nameValue d nid).namespace_id = none ↔
      st = [] ∨ ∃ top rest, st = top :: rest ∧
        mapGet top (nameValue d nid).namespace_id = none) ∧
    (handleEdge d e st = Except.error err → serializeEdges d (e :: es) st = Except.error err) := by
  refine ⟨?_, ?_, ?_, ?_, ?_⟩
  · intro h
    simp [fullname, h]
  · intro h
    rw [fullname]
    rw [if_neg h]
    cases htg : topGet st (nameValue d nid).namespace_id with
    | none => simp
    | some pid =>
      by_cases hpid : pid = d.empty_prefix_id
      · simp [hpid]
      · simp [hpid]
  · intro h htg
    rw [fullname, if_neg h, htg]
  · cases st with
    | nil => simp [topGet]
    | cons top rest => simp [topGet]
  · intro h
    simp [serializeEdges, h]

/-- Witness for C2: in `c2doc` the element name lives in namespace `U`
with the stack empty, so resolution fails with the missing-prefix error,
and the serializer loop starting at that element aborts with the same
error and produces no output. -/
theorem xot_c2_fullname_resolution_witness :
    fullname c2doc [] 0 = Except.error (Error.NoPrefixForNamespace ("U")) ∧
    serializeEdges c2doc (XmlNodeEdge.Start 1 :: traverse c2doc 2) []
      = Except.error (Error.NoPrefixForNamespace ("U")) := by
  have h := xot_c2_fullname_resolution c2doc [] 0 (XmlNodeEdge.Start 1) (traverse c2doc 2)
    (Error.NoPrefixForNamespace ("U"))
  exact ⟨h.2.2.1 (by decide) (by decide), h.2.2.2.2 rfl⟩

/-- Claim C3: every attempt to remove, detach, or relocate (via append,
prepend, insert_before or insert_after) the Root node or the document
element fails with an `InvalidOperation` structural violation, and the
failed operation returns the state unchanged. -/
theorem xot_c3_root_protection (d : XmlData) (r e p ref : NodeId)
    (hr : is_root d r = true)
    (he : node_type d e = NodeType.Element)
    (heu : is_under_root d e = true) :
    detach d r = (Except.error (Error.InvalidOperation ("Cannot remove document root")), d) ∧
    remove d r = (Except.error (Error.InvalidOperation ("Cannot remove document root")), d) ∧
    append d p r = (Except.error (Error.InvalidOperation ("Cannot move document root")), d) ∧
    prepend d p r = (Except.error (Error.InvalidOperation ("Cannot move document root")), d) ∧
    (∃ m, insert_before d ref r = (Except.error (Error.InvalidOperation m), d)) ∧
    (∃ m, insert_after d ref r = (Except.error (Error.InvalidOperation m), d)) ∧
    detach d e = (Except.error (Error.InvalidOperation ("Cannot remove root element")), d) ∧
    remove d e = (Except.error (Error.InvalidOperation ("Cannot remove root element")), d) ∧
    append d p e = (Except.error (Error.InvalidOperation ("Cannot move root element")), d) ∧
    prepend d p e = (Except.error (Error.InvalidOperation ("Cannot move root element")), d) ∧
    (∃ m, insert_before d ref e = (Except.error (Error.InvalidOperation m), d)) ∧
    (∃ m, insert_after d ref e = (Except.error (Error.InvalidOperation m), d)) := by
  have hr2 : node_type d r = NodeType.Root := (is_root_eq_true_iff d r).mp hr
  refine ⟨?_, ?_, ?_, ?_, ?_, ?_, ?_, ?_, ?_, ?_, ?_, ?_⟩
  · simp [detach, remove_structure_check, hr2]
  · simp [remove, remove_structure_check, hr2]
  · simp [append, add_structure_check, hr2]
  · simp [prepend, add_structure_check, hr2]
  · cases hpar : parent d ref with
    | none =>
      exact ⟨"Cannot create siblings for document root",
        by simp [insert_before, add_structure_check, hpar]⟩
    | some q =>
      exact ⟨"Cannot move document root",
        by simp [insert_before, add_structure_check, hpar, hr2]⟩
  · cases hpar : parent d ref with
    | none =>
      exact ⟨"Cannot create siblings for document root",
        by simp [insert_after, add_structure_check, hpar]⟩
    | some q =>
      exact ⟨"Cannot move document root",
        by simp [insert_after, add_structure_check, hpar, hr2]⟩
  · simp [detach, remove_structure_check, he, heu]
  · simp [remove, remove_structure_check, he, heu]
  · simp [append, add_structure_check, he, heu]
  · simp [prepend, add_structure_check, he, heu]
  · cases hpar : parent d ref with
    | none =>
      exact ⟨"Cannot create siblings for document root",
        by simp [insert_before, add_structure_check, hpar]⟩
    | some q =>
      exact ⟨"Cannot move root element",
        by simp [insert_before, add_structure_check, hpar, he, heu]⟩
  · cases hpar : parent d ref with
    | none =>
      exact ⟨"Cannot create siblings for document root",
        by simp [insert_after, add_structure_check, hpar]⟩
    | some q =>
      exact ⟨"Cannot move root element",
        by simp [insert_after, add_structure_check, hpar, he, heu]⟩

/-- Witness for C3 on the concrete two-node document: the hypotheses hold
for the Root (node 0) and the document element (node 1), and detaching the
Root fails leaving the state unchanged. -/
theorem xot_c3_root_protection_witness :
    (is_root c3doc 0 = true ∧ node_type c3doc 1 = NodeType.Element ∧
      is_under_root c3doc 1 = true) ∧
    detach c3doc 0
      = (Except.error (Error.InvalidOperation ("Cannot remove document root")), c3doc) ∧
    detach c3doc 1
      = (Except.error (Error.InvalidOperation ("Cannot remove root element")), c3doc) := by
  have h := xot_c3_root_protection c3doc 0 1 1 1 (by decide) (by decide) (by decide)
  exact ⟨⟨by decide, by decide, by decide⟩, h.1, h.2.2.2.2.2.2.1⟩

/-- Claim C4: comment text containing the forbidden double-dash sequence,
and a processing-instruction target equal case-insensitively to xml, are
rejected by the checked constructors with the dedicated errors before any
node is allocated, while valid content constructs the unattached node. -/
theorem xot_c4_construction_validation (d : XmlData) (s t : String) (data : Option String) :
    (hasDoubleDash s = true →
      new_comment_checked d s = Except.error (Error.InvalidComment s)) ∧
    (hasDoubleDash s = false →
      new_comment_checked d s = Except.ok (new_comment d s)) ∧
    (lowerIsXml t = true →
      new_processing_instruction_checked d t data = Except.error (Error.InvalidTarget t)) ∧
    (lowerIsXml t = false →
      new_processing_instruction_checked d t data =
        Except.ok (new_processing_instruction d t data)) := by
  refine ⟨?_, ?_, ?_, ?_⟩
  · intro h; simp [new_comment_checked, h]
  · intro h; simp [new_comment_checked, h]
  · intro h; simp [new_processing_instruction_checked, h]
  · intro h; simp [new_processing_instruction_checked, h]

/-- Witness for C4: the double-dash comment and the mixed-case xml target
are rejected on a fresh document, and a dash-free comment is accepted. -/
theorem xot_c4_construction_validation_witness :
    hasDoubleDash "a--b" = true ∧
    new_comment_checked XmlData.new "a--b" = Except.error (Error.InvalidComment ("a--b")) ∧
    lowerIsXml "XmL" = true ∧
    new_processing_instruction_checked XmlData.new "XmL" none
      = Except.error (Error.InvalidTarget ("XmL")) ∧
    hasDoubleDash "a-b" = false ∧
    new_comment_checked XmlData.new "a-b" = Except.ok (new_comment XmlData.new "a-b") := by
  have h := xot_c4_construction_validation XmlData.new "a--b" "XmL" none
  have h2 := xot_c4_construction_validation XmlData.new "a-b" "t" none
  exact ⟨by decide, h.1 (by decide), by decide, h.2.2.1 (by decide), by decide,
    h2.2.1 (by decide)⟩

/-- Claim C5 counterexample: on a parent that already holds the Text child
`x`, the single-call sequence `append_text "a"` ends with exactly one Text
child whose content is `xa`, not the concatenation `a` of the appended
strings — so the claim as stated (for every parent element) is false. -/
theorem xot_c5_counterexample :
    (append_text c5doc 1 "a").1 = Except.ok () ∧
    children (append_text c5doc 1 "a").2 1 = [2] ∧
    textChildren (append_text c5doc 1 "a").2 1 = [2] ∧
    text (append_text c5doc 1 "a").2 2 = some ("xa") ∧
    ¬ text (append_text c5doc 1 "a").2 2 = some (strConcat ["a"]) := by
  refine ⟨rfl, rfl, rfl, rfl, by decide⟩

/-- Claim C5 as amended: for every in-range parent element none of whose
children is a Text node, and every nonempty sequence of `append_text`
calls with no intervening non-text insertion, the parent ends with exactly
one Text child whose content is the concatenation in call order. -/
theorem xot_c5_amended_consolidation (d : XmlData) (p : NodeId) (t : String) (ts : List String)
    (hp : p < d.arena.length)
    (helem : node_type d p = NodeType.Element)
    (hvalid : ∀ c ∈ children d p, c < d.arena.length)
    (hnotext : ∀ c ∈ children d p, is_text d c = false) :
    children (appendTexts d p (t :: ts)) p = children d p ++ [d.arena.length] ∧
    textChildren (appendTexts d p (t :: ts)) p = [d.arena.length] ∧
    text (appendTexts d p (t :: ts)) d.arena.length = some (strConcat (t :: ts)) := by
  have hroot : is_root d p = false := by simp [is_root, helem]
  have hstep := append_text_first_facts d p t hp hroot hvalid hnotext
  obtain ⟨-, hlen, hnodp, htk, hpres⟩ := hstep
  have hAT : appendTexts d p (t :: ts) = appendTexts (append_text d p t).2 p ts := rfl
  set k := d.arena.length with hkdef
  set d1 := (append_text d p t).2 with hd1
  have hp1 : p < d1.arena.length := by rw [hlen]; exact Nat.lt_succ_of_lt hp
  have hk1 : k < d1.arena.length := by rw [hlen]; exact Nat.lt_succ_self _
  have hkp : k ≠ p := Ne.symm (Nat.ne_of_lt hp)
  have hroot1 : is_root d1 p = false := by
    rw [is_root, node_type, xml_node, hnodp]
    rw [is_root, node_type, xml_node] at hroot
    exact hroot
  have hch1 : children d1 p = children d p ++ [k] := by
    simp [children, hnodp]
  have hrec := appendTexts_merge_facts ts d1 p k (children d p) t hp1 hk1 hkp hroot1 hch1 htk
  obtain ⟨h1, h2, h3, h4⟩ := hrec
  rw [hAT]
  refine ⟨h1, ?_, ?_⟩
  · rw [textChildren, h1]
    rw [List.filter_append]
    have hkfin : is_text (appendTexts d1 p ts) k = true :=
      is_text_of_text_some h2
    have hothers : ∀ c ∈ children d p, is_text (appendTexts d1 p ts) c = false := by
      intro c hc
      have hclen : c < k := hvalid c hc
      have hck : c ≠ k := Nat.ne_of_lt hclen
      have hc1 : c < d1.arena.length := by rw [hlen]; exact Nat.lt_succ_of_lt hclen
      have hnodfin : nodeOf (appendTexts d1 p ts) c = nodeOf d1 c := h4 c hc1 hck
      have hval1 : (nodeOf d1 c).value = (nodeOf d c).value := by
        by_cases hcp : c = p
        · rw [hcp, hnodp]
        · rw [hpres c hclen hcp]
      rw [is_text, node_type, xml_node, hnodfin, hval1]
      have hx := hnotext c hc
      rw [is_text, node_type, xml_node] at hx
      exact hx
    have hnil : List.filter (fun c => is_text (appendTexts d1 p ts) c) (children d p)
        = [] := by
      simp only [List.filter_eq_nil_iff]
      intro a ha
      simp [hothers a ha]
    rw [hnil]
    simp [List.filter, hkfin]
  · rw [h2]
    simp [strConcat]

/-- Witness for C5 as amended: on the childless document element of
`c5okDoc`, the run `append_text "a"` then `append_text "b"` ends with the
single Text child 2 holding `ab`. -/
theorem xot_c5_amended_consolidation_witness :
    ((1 : NodeId) < c5okDoc.arena.length ∧ node_type c5okDoc 1 = NodeType.Element) ∧
    children (appendTexts c5okDoc 1 ["a", "b"]) 1 = children c5okDoc 1 ++ [2] ∧
    textChildren (appendTexts c5okDoc 1 ["a", "b"]) 1 = [2] ∧
    text (appendTexts c5okDoc 1 ["a", "b"]) 2 = some (strConcat ["a", "b"]) := by
  have hempty : children c5okDoc 1 = [] := rfl
  have h := xot_c5_amended_consolidation c5okDoc 1 "a" ["b"] (by decide) (by decide)
    (by intro c hc; rw [hempty] at hc; cases hc)
    (by intro c hc; rw [hempty] at hc; cases hc)
  exact ⟨⟨by decide, by decide⟩, h.1, h.2.1, h.2.2⟩

/-- Claim C6: for a parent with children `[Text a, X, Text b]` where X is
a Comment or a ProcessingInstruction, detaching or removing X succeeds and
leaves the single child `Text (a ++ b)`: after unlinking, both captured
neighbors are Text, so the later content is appended onto the earlier node
and the later node's storage is destroyed. -/
theorem xot_c6_removal_consolidation (a b c tgt : String) (dta : Option String) :
    (detach (c6doc (XmlNode.Comment c) a b) 3).1 = Except.ok () ∧
    children (detach (c6doc (XmlNode.Comment c) a b) 3).2 1 = [2] ∧
    text (detach (c6doc (XmlNode.Comment c) a b) 3).2 2 = some (a ++ b) ∧
    is_removed (detach (c6doc (XmlNode.Comment c) a b) 3).2 4 = true ∧
    (remove (c6doc (XmlNode.Comment c) a b) 3).1 = Except.ok () ∧
    children (remove (c6doc (XmlNode.Comment c) a b) 3).2 1 = [2] ∧
    text (remove (c6doc (XmlNode.Comment c) a b) 3).2 2 = some (a ++ b) ∧
    (detach (c6doc (XmlNode.ProcessingInstruction tgt dta) a b) 3).1 = Except.ok () ∧
    children (detach (c6doc (XmlNode.ProcessingInstruction tgt dta) a b) 3).2 1 = [2] ∧
    text (detach (c6doc (XmlNode.ProcessingInstruction tgt dta) a b) 3).2 2 = some (a ++ b) ∧
    (remove (c6doc (XmlNode.ProcessingInstruction tgt dta) a b) 3).1 = Except.ok () ∧
    children (remove (c6doc (XmlNode.ProcessingInstruction tgt dta) a b) 3).2 1 = [2] ∧
    text (remove (c6doc (XmlNode.ProcessingInstruction tgt dta) a b) 3).2 2 = some (a ++ b) := by
  exact ⟨rfl, rfl, rfl, rfl, rfl, rfl, rfl, rfl, rfl, rfl, rfl, rfl, rfl⟩

/-- Witness for C6 at concrete strings. -/
theorem xot_c6_removal_consolidation_witness :
    children (detach (c6doc (XmlNode.Comment "z") "a" "b") 3).2 1 = [2] ∧
    text (detach (c6doc (XmlNode.Comment "z") "a" "b") 3).2 2 = some ("a" ++ "b") := by
  have h := xot_c6_removal_consolidation "a" "b" "z" "t" none
  exact ⟨h.2.1, h.2.2.1⟩

/-- Claim C7: appending a Text or Element node directly to the Root fails
with the structural violation (state returned unchanged), while appending
a Comment or ProcessingInstruction to the Root succeeds and links it. -/
theorem xot_c7_root_child_kinds :
    (append (new_text c7doc "x").2 0 2).1
      = Except.error (Error.InvalidOperation ("Cannot move text under document root")) ∧
    (append (new_text c7doc "x").2 0 2).2 = (new_text c7doc "x").2 ∧
    (append (new_element c7doc 0).2 0 2).1
      = Except.error (Error.InvalidOperation ("Cannot move extra element under document root")) ∧
    (append (new_element c7doc 0).2 0 2).2 = (new_element c7doc 0).2 ∧
    (append (new_comment c7doc "x").2 0 2).1 = Except.ok () ∧
    children (append (new_comment c7doc "x").2 0 2).2 0 = [1, 2] ∧
    (append (new_processing_instruction c7doc "t" none).2 0 2).1 = Except.ok () ∧
    children (append (new_processing_instruction c7doc "t" none).2 0 2).2 0 = [1, 2] := by
  exact ⟨rfl, rfl, rfl, rfl, rfl, rfl, rfl, rfl⟩

/-- Claim C8: in `c8doc` the ancestor declaration `p -> U` makes the
descendants `B` and `E` serialize as `p:B` and `p:E` without redeclaring,
the override `p -> V` on `C` affects only the subtree of `C` (its child
`D` serializes as `p:D` against `V`, and the following sibling `E` again
resolves against `U` because the pushed scope was popped); the overlay a
push computes lets the element's own bindings win while inherited bindings
for other namespaces survive, and a pop undoes a push exactly. -/
theorem xot_c8_namespace_scoping :
    serialize_to_string c8doc 1 =
      Except.ok ("<A xmlns:p=\"U\"><p:B/><p:C xmlns:p=\"V\"><p:D/></p:C><p:E/></A>") ∧
    (∀ top m ns pid, mapGet m ns = some pid → mapGet (extendMap top m) ns = some pid) ∧
    (∀ top m ns, mapGet m ns = none → mapGet (extendMap top m) ns = mapGet top ns) ∧
    (∀ st m, fsPop (fsPush st m) = st) := by
  refine ⟨rfl, ?_, ?_, ?_⟩
  · intro top m ns pid h
    rw [extendMap, mapGet_append, h]
  · intro top m ns h
    rw [extendMap, mapGet_append, h]
  · intro st m
    cases st <;> rfl

/-- Witness for C8 on concrete maps: the override binding wins in the
overlay, an unbound namespace falls back to the inherited scope, and the
pop restores the stack below the push. -/
theorem xot_c8_namespace_scoping_witness :
    mapGet [(2, 1)] 2 = some 1 ∧
    mapGet (extendMap [(1, 1)] [(2, 1)]) 2 = some 1 ∧
    mapGet [(2, 1)] 1 = none ∧
    mapGet (extendMap [(1, 1)] [(2, 1)]) 1 = mapGet [(1, 1)] 1 ∧
    fsPop (fsPush [[(1, 1)]] [(2, 1)]) = [[(1, 1)]] := by
  have h := xot_c8_namespace_scoping
  exact ⟨by decide, h.2.1 [(1, 1)] [(2, 1)] 2 1 (by decide), by decide,
    h.2.2.1 [(1, 1)] [(2, 1)] 1 (by decide), h.2.2.2 [[(1, 1)]] [(2, 1)]⟩

/-- Claim C9: a childless element serializes self-closing with no closing
tag, an element with children closes its start tag with a plain bracket
and emits the closing tag on the leave edge, and the closing-tag name is
resolved before the element's scope is popped (`c9cDoc` only resolves its
closing `p:A` because resolution precedes the pop); the general equations
for the leave edge and the enter edge exhibit the same structure. -/
theorem xot_c9_element_close_tag :
    serialize_to_string c9aDoc 1 = Except.ok ("<e/>") ∧
    serialize_to_string c9bDoc 1 = Except.ok ("<a>t</a>") ∧
    serialize_to_string c9cDoc 1 = Except.ok ("<p:A xmlns:p=\"U\">x</p:A>") ∧
    (∀ d n st e, xml_node d n = XmlNode.Element e → first_child d n = none →
      handle_edge_end d n st =
        Except.ok (String.mk [],
          if e.namespace_info.nsToPrefixMap.isEmpty then st else fsPop st)) ∧
    (∀ d n st e fn, xml_node d n = XmlNode.Element e → (first_child d n).isSome = true →
      fullname d st e.name_id = Except.ok fn →
      handle_edge_end d n st =
        Except.ok ("</" ++ fn ++ ">",
          if e.namespace_info.nsToPrefixMap.isEmpty then st else fsPop st)) ∧
    (∀ d n st e fn aOut,
      xml_node d n = XmlNode.Element e →
      fullname d (if e.namespace_info.nsToPrefixMap.isEmpty then st
        else fsPush st e.namespace_info.nsToPrefixMap) e.name_id = Except.ok fn →
      attrsOut d (if e.namespace_info.nsToPrefixMap.isEmpty then st
        else fsPush st e.namespace_info.nsToPrefixMap) e.attributes = Except.ok aOut →
      handle_edge_start d n st =
        Except.ok ("<" ++ fn ++ declsOut d e.namespace_info.declList ++ aOut ++
            (if (first_child d n).isNone then "/>" else ">"),
          if e.namespace_info.nsToPrefixMap.isEmpty then st
            else fsPush st e.namespace_info.nsToPrefixMap)) := by
  refine ⟨rfl, rfl, rfl, ?_, ?_, ?_⟩
  · intro d n st e he hfc
    simp [handle_edge_end, he, hfc]
  · intro d n st e fn he hfc hfn
    simp [handle_edge_end, he, hfc, hfn]
  · intro d n st e fn aOut he hfn haout
    simp only [handle_edge_start, he]
    rw [hfn, haout]

/-- Witness for C9: the leave-edge equations applied to the childless and
the one-child concrete elements. -/
theorem xot_c9_element_close_tag_witness :
    handle_edge_end c9aDoc 1 [] = Except.ok (String.mk [], ([] : ScopeStack)) ∧
    handle_edge_end c9bDoc 1 [] = Except.ok ("</a>", ([] : ScopeStack)) := by
  have h := xot_c9_element_close_tag
  exact ⟨h.2.2.2.1 c9aDoc 1 [] ⟨0, [], ⟨[], []⟩⟩ rfl rfl,
    h.2.2.2.2.1 c9bDoc 1 [] ⟨0, [], ⟨[], []⟩⟩ "a" rfl rfl rfl⟩

/-- Claim C10: appending a fresh Text node (handle 3) to a parent whose
last child is Text succeeds by consolidation — the call reports success,
the passed node is never linked (the child list is unchanged and the
handle has no parent), its storage is removed so `is_removed` returns
true, and the neighbor holds the merged content. -/
theorem xot_c10_consolidated_append_removes_handle (a b : String) :
    (append (new_text (c10doc a) b).2 1 3).1 = Except.ok () ∧
    children (append (new_text (c10doc a) b).2 1 3).2 1 = [2] ∧
    text (append (new_text (c10doc a) b).2 1 3).2 2 = some (a ++ b) ∧
    is_removed (append (new_text (c10doc a) b).2 1 3).2 3 = true ∧
    parent (append (new_text (c10doc a) b).2 1 3).2 3 = none := by
  exact ⟨rfl, rfl, rfl, rfl, rfl⟩

/-- Witness for C10 at concrete strings. -/
theorem xot_c10_consolidated_append_removes_handle_witness :
    children (append (new_text (c10doc "a") "b").2 1 3).2 1 = [2] ∧
    is_removed (append (new_text (c10doc "a") "b").2 1 3).2 3 = true := by
  have h := xot_c10_consolidated_append_removes_handle "a" "b"
  exact ⟨h.2.1, h.2.2.2.1⟩

end Xot
